import Mathlib

/-!
Verification development for the wallet-chain-account repository.

The repository (Go) exposes a unified account/transaction API over an EVM
chain and a Solana-style chain.  This file gives a shallow embedding of the
functions the checked claims talk about:

* `service/evmbase` part: `BuildErc20Data`, `BlockHeaderByHash`,
  `BlockHeadersByRange` (group partition for restricted chains);
* `service/ethereum/ethereum.go`: `ConvertAddress`, `BuildSignedTransaction`,
  the ERC-20 branch of `DecodeTransaction`;
* `service/svmbase`: `GetSuggestedPriorityFee`, the SVM rpc client's
  `GetTransaction`, `GetTransactionRange`, `GetRecentPrioritizationFees`;
* `service/solana/solana.go`: `GetFee`, `BuildSignedTransaction`.

Machine integers (`uint64`) are modelled as `Nat` with explicit `% 2 ^ 64`
where Go wraps.  Byte slices are `List Nat` (each element `< 256`); Go
strings whose byte content matters are `List Char` / `String` of ASCII
characters.  Calls into external libraries (keccak, secp256k1 recovery,
ed25519 verification, JSON / base64 codecs, the network) are abstracted as
explicit function parameters ("oracles"); everything the claims quantify
over is embedded from the source.
-/

namespace WCA

/-- Lowercase hex digit character of a nibble (`48 = '0'`, `97 = 'a'`), as
produced by Go's `encoding/hex.EncodeToString` / `hexutil.Encode`. -/
def hexDigitChar (n : Nat) : Char :=
  if n < 10 then Char.ofNat (48 + n) else Char.ofNat (97 + (n - 10))

/-- Two lowercase hex characters of one byte. -/
def byteToHex (b : Nat) : List Char :=
  [hexDigitChar (b / 16), hexDigitChar (b % 16)]

/-- Lowercase hex encoding of a byte slice (the `hexutil.Encode` body,
without the `"0x"` prefix). -/
def hexEncodeChars (bs : List Nat) : List Char :=
  bs.flatMap byteToHex

/-- Numeric value of a hex digit character (0 for non-digits; callers guard
with `isHexDigitCh`). -/
def hexVal (c : Char) : Nat :=
  if 48 ≤ c.toNat ∧ c.toNat ≤ 57 then c.toNat - 48
  else if 97 ≤ c.toNat ∧ c.toNat ≤ 102 then c.toNat - 97 + 10
  else if 65 ≤ c.toNat ∧ c.toNat ≤ 70 then c.toNat - 65 + 10
  else 0

/-- Whether a character is an ASCII hex digit (`0-9a-fA-F`), as accepted by
Go's `encoding/hex` and `hexutil`. -/
def isHexDigitCh (c : Char) : Bool :=
  (48 ≤ c.toNat ∧ c.toNat ≤ 57) ∨ (97 ≤ c.toNat ∧ c.toNat ≤ 102) ∨
    (65 ≤ c.toNat ∧ c.toNat ≤ 70)

/-- Big-endian value of a string of hex digits. -/
def parseHexDigits (cs : List Char) : Nat :=
  cs.foldl (fun acc c => 16 * acc + hexVal c) 0

/-- Minimal big-endian base-256 digits of a natural number; `[]` for `0`.
This is `(*big.Int).Bytes()`. -/
def natBytesBE (n : Nat) : List Nat :=
  if h : n = 0 then [] else natBytesBE (n / 256) ++ [n % 256]
decreasing_by exact Nat.div_lt_self (Nat.pos_of_ne_zero h) (by omega)

/-- Big-endian value of a byte slice. -/
def bytesToNatBE (bs : List Nat) : Nat :=
  bs.foldl (fun acc b => 256 * acc + b) 0

/-- Go `common.LeftPadBytes bs n`: left-pad with zero bytes up to length
`n`; a slice already at least `n` long is returned unchanged. -/
def leftPadBytes (bs : List Nat) (n : Nat) : List Nat :=
  if n ≤ bs.length then bs else List.replicate (n - bs.length) 0 ++ bs

/-- First four bytes of `Keccak256("transfer(address,uint256)")`, the ERC-20
`transfer` selector `0xa9059cbb` (the decoder at `ethereum.go:564` compares
against this literal). -/
def erc20MethodId : List Nat := [0xa9, 0x05, 0x9c, 0xbb]

/-- `evmbase.BuildErc20Data` (part_001:43-75): selector, then the
destination address and the amount, each left-padded to 32 bytes. -/
def BuildErc20Data (toAddress : List Nat) (amount : Nat) : List Nat :=
  erc20MethodId ++ leftPadBytes toAddress 32 ++ leftPadBytes (natBytesBE amount) 32

/-- go-ethereum `hexutil.DecodeBig`: requires a `0x` prefix, a non-empty
digit string with no leading zero, at most 64 digits (256 bits), all hex;
returns `none` on any failure (the Go function returns `nil` and an error,
which `DecodeTransaction` discards). -/
def hexutilDecodeBig (input : List Char) : Option Nat :=
  match input with
  | '0' :: 'x' :: raw =>
    match raw with
    | [] => none
    | c :: rest =>
      if c = '0' ∧ rest ≠ [] then none
      else if 64 < raw.length then none
      else if raw.all isHexDigitCh then some (parseHexDigits raw)
      else none
  | _ => none

/-- The ERC-20 branch of `EthNodeService.DecodeTransaction`
(ethereum.go:562-571): hex-encode the call data with a `0x` prefix; when it
is at least 138 characters and starts with the `transfer` selector, the
destination is characters `[34:74]` re-prefixed with `0x`, and the amount is
characters `[74:138]` with leading `'0'`s trimmed, parsed by
`hexutil.DecodeBig`.  The amount is `none` when `DecodeBig` fails (in Go the
`nil` big.Int then makes `decimal.NewFromBigInt` dereference nil).  Returns
`none` when the selector / length check fails (non-ERC-20 branch). -/
def decodeErc20Branch (data : List Nat) : Option (List Char × Option Nat) :=
  let inputData := '0' :: 'x' :: hexEncodeChars data
  if 138 ≤ inputData.length ∧
      inputData.take 10 = ['0', 'x', 'a', '9', '0', '5', '9', 'c', 'b', 'b'] then
    let toAddress := '0' :: 'x' :: ((inputData.drop 34).take 40)
    let trimHex := ((inputData.drop 74).take 64).dropWhile (· = '0')
    some (toAddress, hexutilDecodeBig ('0' :: 'x' :: trimHex))
  else
    none

/-- One entry of the node's `getRecentPrioritizationFees` response
(svmbase, part_004): a slot and the per-compute-unit fee paid in it.  Both
fields are `uint64`. -/
structure PrioritizationFee where
  slot : Nat
  prioritizationFee : Nat
deriving DecidableEq, Repr

/-- `svmbase.GetSuggestedPriorityFee` (common.go:274-296): empty list gives
0; otherwise extract the fee values, sort ascending (`sort.Slice` with a `<`
comparator), and take the value at index `int(float64(N) * 0.75)`.  For
every length a Go slice can have, `float64(N) * 0.75` is the exact rational
`3N/4` (it is `3N * 2^-2` and `3N` fits in float64's 53-bit mantissa), so
the truncating conversion is the floor division `3 * N / 4`. -/
def GetSuggestedPriorityFee (fees : List PrioritizationFee) : Nat :=
  if fees.length = 0 then 0
  else
    let priorityFees := fees.map (·.prioritizationFee)
    let sorted := priorityFees.insertionSort (· ≤ ·)
    sorted.getD (3 * priorityFees.length / 4) 0

/-- The slow tier of `SOLNodeService.GetFee` (solana.go:306):
`baseFee + uint64(float64(priorityFee)*0.75)`.  The float product is the
exact rational for `priorityFee < 2^53` (all real lamport fees), so the
conversion is the floor `3 * priorityFee / 4`; the uint64 sum wraps at
`2^64`. -/
def slowFee (baseFee priorityFee : Nat) : Nat :=
  (baseFee + 3 * priorityFee / 4) % 2 ^ 64

/-- The normal tier (solana.go:307): `baseFee + priorityFee` in uint64. -/
def normalFee (baseFee priorityFee : Nat) : Nat :=
  (baseFee + priorityFee) % 2 ^ 64

/-- The fast tier (solana.go:308): `baseFee + uint64(float64(priorityFee)*1.25)`,
modelled like `slowFee` as the floor `5 * priorityFee / 4` plus wrap. -/
def fastFee (baseFee priorityFee : Nat) : Nat :=
  (baseFee + 5 * priorityFee / 4) % 2 ^ 64

/-- Outcome of the one HTTP POST issued by
`svmClient.GetRecentPrioritizationFees` (part_002:555-587), as the four
observations the Go code checks in order: the transport error from `Post`,
`httpResp.IsError()`, the JSON-RPC `error` object, and the decoded `result`
(`none` models a missing/null `Result`). -/
structure FeesRpcResult where
  transportErr : Option String
  httpIsError : Bool
  rpcError : Option (Int × String)
  result : Option (List PrioritizationFee)

/-- `svmClient.GetRecentPrioritizationFees` (part_002:555-587): transport
error, HTTP-level error and RPC error object are checked in order; a `nil`
or empty `Result` is rejected as
`invalid response: empty RecentPrioritizationFees data`. -/
def GetRecentPrioritizationFees (r : FeesRpcResult) : Except String (List PrioritizationFee) :=
  match r.transportErr with
  | some e => .error ("request failed: " ++ e)
  | none =>
    if r.httpIsError then .error "failed to get prioritization fees: http error"
    else
      match r.rpcError with
      | some em => .error ("RPC error: code=" ++ toString em.1 ++ ", message=" ++ em.2)
      | none =>
        match r.result with
        | none => .error "invalid response: empty RecentPrioritizationFees data"
        | some l =>
          if l.length = 0 then .error "invalid response: empty RecentPrioritizationFees data"
          else .ok l

/-- `validateChainAndNetwork` (solana/types.go:133-141): only the chain name
is checked (`ChainName = "Solana"`); the network check is commented out in
the source. -/
def validateChainAndNetwork (chain _network : String) : Bool × String :=
  if chain ≠ "Solana" then (false, "invalid chain") else (true, "")

/-- One fee tier of `domain.GasFee` as used by the SVM `GetFee` (only
`GasPrice` is populated on this path). -/
structure GasFee where
  gasPrice : String
deriving DecidableEq, Repr

/-- `domain.Fee`: the three tiers returned by `GetFee`. -/
structure Fee where
  slowFee : GasFee
  normalFee : GasFee
  fastFee : GasFee
deriving DecidableEq, Repr

/-- `SOLNodeService.GetFee` (solana.go:288-315).  The two RPC reads —
`GetFeeForMessage` (the uint64 base fee) and `GetRecentPrioritizationFees`
— are passed as their outcomes; every error aborts with the operation
context prepended, exactly as the Go code wraps them. -/
def solGetFee (chain network : String) (baseFeeResp : Except String Nat)
    (feesResp : FeesRpcResult) : Except String Fee :=
  let v := validateChainAndNetwork chain network
  if !v.1 then .error ("GetFee validateChainAndNetwork fail, err msg = " ++ v.2)
  else
    match baseFeeResp with
    | .error e => .error ("GetFee GetFeeForMessage failed: " ++ e)
    | .ok baseFee =>
      match GetRecentPrioritizationFees feesResp with
      | .error e => .error ("GetFee GetRecentPrioritizationFees failed: " ++ e)
      | .ok priorityFees =>
        let priorityFee := GetSuggestedPriorityFee priorityFees
        .ok { slowFee := { gasPrice := toString (slowFee baseFee priorityFee) },
              normalFee := { gasPrice := toString (normalFee baseFee priorityFee) },
              fastFee := { gasPrice := toString (fastFee baseFee priorityFee) } }

/-- Go `strings.TrimSpace`: strip whitespace from both ends.  The claims'
inputs are ASCII, where `Char.isWhitespace` agrees with Go's
`unicode.IsSpace`. -/
def trimSpace (s : String) : String :=
  String.mk (((s.toList.dropWhile Char.isWhitespace).reverse.dropWhile
    Char.isWhitespace).reverse)

/-- The part of a decoded `getTransaction` result the fetch logic inspects:
`Transaction.Signatures`, with `none` for a nil slice (Go distinguishes nil
from empty). -/
structure SvmTransactionDetail where
  signatures : Option (List String)
deriving DecidableEq, Repr

/-- `svmbase.TransactionResult`, reduced to the fields the range-fetch logic
branches on. -/
structure TransactionResult where
  slot : Nat
  transaction : SvmTransactionDetail
deriving DecidableEq, Repr

/-- Outcome of the one HTTP POST of `svmClient.GetTransaction`
(part_003:507-561), as the observations the Go code checks in order. -/
structure GetTxRpcResult where
  transportErr : Option String
  httpIsError : Bool
  rpcError : Option (Int × String)
  result : TransactionResult
deriving Repr

/-- `svmClient.GetTransaction` (part_003:507-561).  The second component
counts HTTP POSTs (0 when validation rejects the signature before any
network call).  Go's `len` is the byte length; on the ASCII signatures in
scope it equals `String.length`. -/
def getTransaction (net : String → GetTxRpcResult) (signature0 : String) :
    Except String TransactionResult × Nat :=
  let signature := trimSpace signature0
  if signature = "" then (.error "invalid input: empty signature", 0)
  else if signature.length < 88 ∨ 90 < signature.length then
    (.error ("invalid signature length: expected 88-90 chars, got " ++
      toString signature.length), 0)
  else
    let r := net signature
    (match r.transportErr with
     | some e => .error ("request failed: " ++ e)
     | none =>
       if r.httpIsError then .error "failed to get transaction: http error"
       else
         match r.rpcError with
         | some em =>
           if em.1 = -32004 then .error ("transaction not found: " ++ signature)
           else .error ("RPC error: code=" ++ toString em.1 ++ ", message=" ++ em.2)
         | none =>
           match r.result.transaction.signatures with
           | none => .error "invalid response: empty transaction data"
           | some _ => .ok r.result, 1)

/-- The validation loop of `GetTransactionRange` (part_003:568-577) over the
already-trimmed signatures, with the index carried for the error text;
returns the first failure. -/
def validateSignatureList : Nat → List String → Option String
  | _, [] => none
  | i, s :: rest =>
    if s = "" then some ("invalid input: empty signature at index " ++ toString i)
    else if s.length < 88 ∨ 90 < s.length then
      some ("invalid signature length at index " ++ toString i ++
        ": expected 88-90 chars, got " ++ toString s.length)
    else validateSignatureList (i + 1) rest

/-- One fan-out worker of `GetTransactionRange` (part_003:606-643).  With the
network modelled as a function of the signature, each of the up-to-3 retries
returns the same outcome, so the worker contributes the first outcome, with
a failure wrapped as `failed to get transaction <sig>: <err>` exactly as the
worker sends it to the error channel. -/
def workerOutcome (net : String → GetTxRpcResult) (s : String) :
    Except String TransactionResult × Nat :=
  let r := getTransaction net s
  (match r.1 with
   | .ok tx => .ok tx
   | .error e => .error ("failed to get transaction " ++ s ++ ": " ++ e), r.2)

/-- The error channel's contents after all workers finish (part_003:649-654),
in input order (the Go drain order depends on scheduling; the claims only
concern which causes are listed). -/
def rangeErrors (net : String → GetTxRpcResult) (trimmed : List String) : List String :=
  (trimmed.map (workerOutcome net)).filterMap
    (fun o => match o.1 with | .error e => some e | .ok _ => none)

/-- The result channel's contents after all workers finish. -/
def rangeResults (net : String → GetTxRpcResult) (trimmed : List String) :
    List TransactionResult :=
  (trimmed.map (workerOutcome net)).filterMap
    (fun o => match o.1 with | .ok tx => some tx | .error _ => none)

/-- HTTP POSTs issued by the fan-out, one per worker (Go retries a
transport failure up to twice more with the same deterministic outcome
here; the claims only rely on the count being 0 before validation). -/
def rangeCalls (net : String → GetTxRpcResult) (trimmed : List String) : Nat :=
  ((trimmed.map (workerOutcome net)).map (·.2)).sum

/-- `svmClient.GetTransactionRange` (part_003:563-673).  The Go function
returns a `([]*TransactionResult, error)` pair, modelled as
`Option (List TransactionResult) × Option String` (`nil` slice = `none`);
the extra `Nat` counts HTTP POSTs.  Note the error path at part_003:655-657
returns `nil` results together with the aggregate error. -/
def getTransactionRange (net : String → GetTxRpcResult) (sigs : List String) :
    (Option (List TransactionResult) × Option String) × Nat :=
  if sigs.length = 0 then ((none, some "empty signatures"), 0)
  else
    let trimmed := sigs.map trimSpace
    match validateSignatureList 0 trimmed with
    | some e => ((none, some e), 0)
    | none =>
      match trimmed with
      | [s] =>
        let r := getTransaction net s
        (match r.1 with
         | .error e => (none, some ("failed to get single transaction: " ++ e))
         | .ok tx => (some [tx], none), r.2)
      | _ =>
        let errorList := rangeErrors net trimmed
        if 0 < errorList.length then
          ((none, some ("multiple errors occurred: " ++
            String.intercalate "; " errorList)), rangeCalls net trimmed)
        else
          let validResults := (rangeResults net trimmed).filter
            (fun tx => tx.transaction.signatures.isSome)
          if validResults.length = 0 then
            ((none, some "no valid transactions found"), rangeCalls net trimmed)
          else ((some validResults, none), rangeCalls net trimmed)

/-- An 88-character signature used in the C6 scenario. -/
def sigA : String := String.mk (List.replicate 88 'a')

/-- A second 88-character signature, for which the modelled node fails. -/
def sigB : String := String.mk (List.replicate 88 'b')

/-- A network model where `sigB` gets an RPC error and every other
signature succeeds with a valid transaction. -/
def netC : String → GetTxRpcResult := fun s =>
  if s = sigB then
    { transportErr := none, httpIsError := false, rpcError := some (-1, "boom"),
      result := { slot := 0, transaction := { signatures := some [] } } }
  else
    { transportErr := none, httpIsError := false, rpcError := none,
      result := { slot := 5, transaction := { signatures := some ["x"] } } }

/-- Decode pairs of hex characters into bytes; `none` on odd length or a
non-hex character, exactly the failure conditions of Go's
`hex.DecodeString` (`ErrLength` / `InvalidByteError`). -/
def hexPairsToBytes : List Char → Option (List Nat)
  | [] => some []
  | [_] => none
  | c1 :: c2 :: rest =>
    if isHexDigitCh c1 ∧ isHexDigitCh c2 then
      (hexPairsToBytes rest).map (fun bs => (16 * hexVal c1 + hexVal c2) :: bs)
    else none

/-- Go `hex.DecodeString` on a string's characters. -/
def hexDecodeString (s : String) : Option (List Nat) :=
  hexPairsToBytes s.toList

/-- `common.Address{}.String()`: the zero address (EIP-55 checksumming
leaves zero digits unchanged). -/
def zeroAddressString : String := "0x0000000000000000000000000000000000000000"

/-- `EthNodeService.ConvertAddress` (ethereum.go:45-69), with the two
external library calls as oracles: `keccak` is `crypto.Keccak256` and
`addrString` is `common.BytesToAddress(·).String()` (EIP-55 formatting of
the last 20 bytes of its 32-byte input — the `[12:]` slice).  A hex decode
failure returns the zero address with a nil error.  (On a successful decode
of the empty string, Go's `publicKeyBytes[1:]` would panic; the modelled
`drop 1` is only exercised on non-empty decodes, and no claim touches that
corner.)  The pair is Go's `(string, error)` return. -/
def convertAddress (keccak : List Nat → List Nat) (addrString : List Nat → String)
    (publicKey : String) : String × Option String :=
  match hexDecodeString publicKey with
  | none => (zeroAddressString, none)
  | some publicKeyBytes =>
    (addrString ((keccak (publicKeyBytes.drop 1)).drop 12), none)

/-- The `ethereumtypes.DynamicFeeTx` assembled by `buildDynamicFeeTx`
(ethereum.go:668-678). -/
structure DynamicFeeTx where
  chainId : Nat
  nonce : Nat
  gasTipCap : Nat
  gasFeeCap : Nat
  gas : Nat
  toAddr : String
  value : Nat
  data : List Nat
deriving Repr

/-- The caller-supplied `Eip1559DynamicFeeTx` request, reduced to the fields
`BuildSignedTransaction` itself reads after `buildDynamicFeeTx` returns it
(only `FromAddress` is consumed there; `ContractAddress` drives the
transfer-kind decision inside `buildDynamicFeeTx`). -/
structure Eip1559DynamicFeeTx where
  fromAddress : String
  contractAddress : String
deriving DecidableEq, Repr

/-- The result four-tuple of `evmbase.CreateEip1559SignedTx` (part_001:110-128):
the `(signer, signedTx)` pair is consumed only by the sender-recovery
oracle, so it is carried opaquely by this value; `rawTx` and `txHash` are
the strings the Go function returns. -/
structure CreateSignedOut where
  rawTx : String
  txHash : String
deriving DecidableEq, Repr

/-- `domain.SignedTransaction`: the result of the signed-build operations. -/
structure SignedTransaction where
  txHash : String
  signedTx : String
deriving DecidableEq, Repr

/-- External stages of `EthNodeService.BuildSignedTransaction`
(ethereum.go:462-519): `buildDynamicFeeTx` (base64 + JSON decode + numeric
parsing + ERC-20 data assembly, ethereum.go:596-681),
`evmbase.CreateEip1559SignedTx` (go-ethereum signing machinery) and
`ethereumtypes.Sender` (secp256k1 public-key recovery). -/
structure EthBuildEnv where
  buildDynamicFeeTx : String → Except String (DynamicFeeTx × Eip1559DynamicFeeTx)
  createEip1559SignedTx : DynamicFeeTx → List Nat → Except String CreateSignedOut
  sender : CreateSignedOut → Except String String

/-- `EthNodeService.BuildSignedTransaction` (ethereum.go:462-519): every
stage failure aborts with a wrapped error; after sender recovery, a
recovered sender different from the declared `FromAddress` is a hard error
(ethereum.go:505-510) and only a match returns the signed result. -/
def ethBuildSignedTransaction (env : EthBuildEnv) (base64Tx signatureHex : String) :
    Except String SignedTransaction :=
  match env.buildDynamicFeeTx base64Tx with
  | .error e => .error ("buildDynamicFeeTx failed: " ++ e)
  | .ok (dFeeTx, dynamicFeeTx) =>
    match hexDecodeString signatureHex with
    | none => .error "invalid signature: invalid hex"
    | some sigBytes =>
      match env.createEip1559SignedTx dFeeTx sigBytes with
      | .error e => .error ("create signed tx fail: " ++ e)
      | .ok out =>
        match env.sender out with
        | .error e => .error ("recover sender failed: " ++ e)
        | .ok sender =>
          if sender ≠ dynamicFeeTx.fromAddress then
            .error ("sender address mismatch: expected " ++
              dynamicFeeTx.fromAddress ++ ", got " ++ sender)
          else
            .ok { txHash := out.txHash, signedTx := out.rawTx }

/-- `types.Header`, reduced to the field the claims observe; header identity
beyond the number lives in the hash oracle. -/
structure Header where
  number : Nat
deriving DecidableEq, Repr

/-- `evmClient.BlockHeaderByHash` (evmclient.go:50-67): RPC error and `nil`
header are distinct failures, and a fetched header whose own recomputed
hash (`header.Hash()`, the `headerHashFn` oracle) differs from the
requested one is rejected as `header mismatch`. -/
def blockHeaderByHash (node : String → Except String (Option Header))
    (headerHashFn : Header → String) (hash : String) : Except String Header :=
  match node hash with
  | .error e => .error e
  | .ok none => .error "not found"
  | .ok (some hd) =>
    if headerHashFn hd ≠ hash then .error "header mismatch"
    else .ok hd

/-- `evmClient.BlockHeaderByNumber` (evmclient.go:33-48): a `nil` result is
the distinct not-found condition. -/
def blockHeaderByNumber (node : Nat → Except String (Option Header))
    (number : Nat) : Except String Header :=
  match node number with
  | .error e => .error e
  | .ok none => .error "not found"
  | .ok (some hd) => .ok hd

/-- One RPC call issued by `BlockHeadersByRange`, for observing which path
executed. -/
inductive RpcCall where
  | single (height : Nat)
  | batch (heights : List Nat)
deriving DecidableEq, Repr

/-- The fixed group size of the restricted-chain partition
(evmclient.go:87). -/
def groupSize : Nat := 100

/-- The group starts of the loop `for i := 0; i < count; i += groupSize`
(evmclient.go:92). -/
def groupStarts (count : Nat) : List Nat :=
  if count = 0 then [] else (List.range ((count - 1) / groupSize + 1)).map (· * groupSize)

/-- The clamped group end (evmclient.go:94-97): `end := i + groupSize - 1;
if end > count { end = count - 1 }` — note the comparison is with `count`,
not `count - 1`. -/
def groupEnd (count i : Nat) : Nat :=
  if count < i + groupSize - 1 then count - 1 else i + groupSize - 1

/-- The indices `j` written by the goroutine of the group starting at `i`:
`for j := start; j <= end; j++` writes `batchElems[j]`
(evmclient.go:100-111). -/
def writtenIndices (count i : Nat) : List Nat :=
  List.range' i (groupEnd count i + 1 - i)

/-- `evmClient.BlockHeadersByRange` (evmclient.go:70-138).  `node` answers
`eth_getBlockByNumber` for one height; `batchFetch` stands for
`BatchCallContext` on the assembled batch.  The second component records
the RPC calls issued, to observe the path taken.  On the restricted-chain
path each group's goroutine issues one `eth_getBlockByNumber` per index;
the per-element errors it records are never checked by the assembly loop,
which keeps whatever header object the call left behind (zero-valued on
failure). -/
def blockHeadersByRange (node : Nat → Except String (Option Header))
    (batchFetch : List Nat → Except String (List Header))
    (restricted : Bool) (startH endH : Nat) :
    Except String (List Header) × List RpcCall :=
  if startH = endH then
    match blockHeaderByNumber node startH with
    | .error e => (.error e, [.single startH])
    | .ok hd => (.ok [hd], [.single startH])
  else
    let count := endH - startH + 1
    let heights := (List.range count).map (startH + ·)
    if restricted then
      let calls := (groupStarts count).flatMap
        (fun i => (writtenIndices count i).map (fun j => RpcCall.single (startH + j)))
      let headers := heights.map (fun hgt =>
        match node hgt with
        | .ok (some hd) => hd
        | _ => { number := 0 })
      (.ok headers, calls)
    else
      match batchFetch heights with
      | .error e => (.error e, [.batch heights])
      | .ok hs => (.ok hs, [.batch heights])

/-- The `solana.TxStructure` request (solana/types.go). -/
structure SolTxStructure where
  nonce : String
  gasPrice : String
  gasTipCap : String
  gasFeeCap : String
  gas : Nat
  contractAddress : String
  fromAddress : String
  toAddress : String
  tokenId : String
  value : String
  signature : String
deriving DecidableEq, Repr

/-- The library `solana.Transaction` as the signed-build path observes it:
the signature slots it writes, plus an opaque identity for the message the
construction produced. -/
structure SolTransaction where
  signatures : List (List Nat)
  msgId : Nat
deriving DecidableEq, Repr

/-- External stages of `SOLNodeService.BuildSignedTransaction`
(solana.go:625-778): base64+JSON decode into `TxStructure`,
`strconv.ParseFloat` with the 1e9 scaling, base58 public-key parsing, the
whole SOL/SPL construction branch (solana.go:660-734, including the
associated-token-account RPC lookups; the native branch's
`solana.NewTransaction` error is unchecked in the source),
`tx.VerifySignatures()` (ed25519), and `tx.MarshalBinary()`. -/
structure SolBuildEnv where
  decodeTxStructure : String → Except String SolTxStructure
  parseValue : String → Except String Nat
  publicKeyFromBase58 : String → Except String (List Nat)
  constructTx : SolTxStructure → Nat → List Nat → List Nat → Except String SolTransaction
  verifySignatures : SolTransaction → Option String
  marshalBinary : SolTransaction → Except String (List Nat)

/-- Signature attachment (solana.go:736-758): ensure one signature slot
exists, then copy the decoded bytes into the 64-byte slot 0 (`copy` writes
at most 64 bytes over a zero-initialized array). -/
def setSolSignature (tx : SolTransaction) (sigBytes : List Nat) : SolTransaction :=
  let sigs := if tx.signatures.length = 0 then [List.replicate 64 0] else tx.signatures
  let solSignature := sigBytes.take 64 ++ List.replicate (64 - min 64 sigBytes.length) 0
  { tx with signatures := sigs.set 0 solSignature }

/-- The base58 alphabet of `btcutil/base58`. -/
def base58Alphabet : List Char :=
  "123456789ABCDEFGHJKLMNPQRSTUVWXYZabcdefghijkmnopqrstuvwxyz".toList

/-- Base-58 digits of a natural number, most significant first. -/
def natBase58 (n : Nat) : List Char :=
  if h : n = 0 then [] else natBase58 (n / 58) ++ [base58Alphabet.getD (n % 58) '1']
decreasing_by exact Nat.div_lt_self (Nat.pos_of_ne_zero h) (by omega)

/-- `base58.Encode`: a `'1'` per leading zero byte, then the base-58 digits
of the big-endian value. -/
def base58Encode (bs : List Nat) : String :=
  String.mk (List.replicate (bs.takeWhile (· = 0)).length '1' ++
    natBase58 (bytesToNatBE bs))

/-- `SOLNodeService.BuildSignedTransaction` (solana.go:625-778).  Stage
failures up to transaction construction abort; the signature hex-decode
error (743-746), a signature length other than 64 (749-751) and a
`VerifySignatures` failure (763-765) are only logged, after which the
function still serializes and returns the signed transaction.  The Go
function leaves `TxHash` empty on this path. -/
def solBuildSignedTransaction (env : SolBuildEnv) (base64Tx : String) :
    Except String SignedTransaction :=
  match env.decodeTxStructure base64Tx with
  | .error e => .error e
  | .ok data =>
    match env.parseValue data.value with
    | .error e => .error ("failed to parse value: " ++ e)
    | .ok value =>
      match env.publicKeyFromBase58 data.fromAddress with
      | .error e => .error e
      | .ok fromPub =>
        match env.publicKeyFromBase58 data.toAddress with
        | .error e => .error e
        | .ok toPub =>
          match env.constructTx data value fromPub toPub with
          | .error e => .error e
          | .ok tx0 =>
            let sigBytes := (hexDecodeString data.signature).getD []
            let tx := setSolSignature tx0 sigBytes
            let _verify := env.verifySignatures tx
            match env.marshalBinary tx with
            | .error e => .error ("failed to serialize transaction: " ++ e)
            | .ok bytes => .ok { txHash := "", signedTx := base58Encode bytes }

/-- A concrete EVM build environment whose sender oracle recovers an
address different from the declared one. -/
def envE : EthBuildEnv :=
  { buildDynamicFeeTx := fun _ =>
      .ok ({ chainId := 1, nonce := 0, gasTipCap := 1, gasFeeCap := 2, gas := 21000,
             toAddr := "0xBob", value := 5, data := [] },
           { fromAddress := "0xAlice", contractAddress := "" }),
    createEip1559SignedTx := fun _ _ => .ok { rawTx := "0xraw", txHash := "0xhash" },
    sender := fun _ => .ok "0xMallory" }

/-- A concrete request for the SVM signed-build scenario. -/
def dataS : SolTxStructure :=
  { nonce := "nonceS", gasPrice := "0", gasTipCap := "0", gasFeeCap := "0", gas := 0,
    contractAddress := "", fromAddress := "fromS", toAddress := "toS",
    tokenId := "", value := "1.5", signature := "ab" }

/-- A concrete SVM build environment whose native signature verification
fails. -/
def envS : SolBuildEnv :=
  { decodeTxStructure := fun _ => .ok dataS,
    parseValue := fun _ => .ok 1500000000,
    publicKeyFromBase58 := fun _ => .ok (List.replicate 32 1),
    constructTx := fun _ _ _ _ => .ok { signatures := [], msgId := 7 },
    verifySignatures := fun _ => some "invalid signature",
    marshalBinary := fun _ => .ok [1, 2, 3] }

/-! ### Arithmetic and encoding lemmas -/

theorem hexVal_hexDigitChar : ∀ n < 16, hexVal (hexDigitChar n) = n := by decide

theorem isHexDigitCh_hexDigitChar : ∀ n < 16, isHexDigitCh (hexDigitChar n) = true := by
  decide

theorem hexDigitChar_ne_zero : ∀ n < 16, n ≠ 0 → hexDigitChar n ≠ '0' := by decide

theorem byteToHex_length (b : Nat) : (byteToHex b).length = 2 := rfl

theorem hexEncodeChars_nil : hexEncodeChars [] = [] := rfl

theorem hexEncodeChars_cons (b : Nat) (bs : List Nat) :
    hexEncodeChars (b :: bs) = byteToHex b ++ hexEncodeChars bs := rfl

theorem hexEncodeChars_append (a b : List Nat) :
    hexEncodeChars (a ++ b) = hexEncodeChars a ++ hexEncodeChars b := by
  induction a with
  | nil => rfl
  | cons x xs ih =>
    simp [hexEncodeChars_cons, List.cons_append, ih]

theorem hexEncodeChars_length (bs : List Nat) :
    (hexEncodeChars bs).length = 2 * bs.length := by
  induction bs with
  | nil => rfl
  | cons b bs ih =>
    simp [hexEncodeChars_cons, List.length_append, byteToHex_length, ih]
    omega

theorem byteToHex_zero : byteToHex 0 = ['0', '0'] := by decide

theorem hexEncodeChars_replicate_zero (k : Nat) :
    hexEncodeChars (List.replicate k 0) = List.replicate (2 * k) '0' := by
  induction k with
  | zero => rfl
  | succ k ih =>
    rw [List.replicate_succ, hexEncodeChars_cons, byteToHex_zero, ih]
    have : 2 * (k + 1) = 2 + 2 * k := by omega
    rw [this, List.replicate_add]
    rfl

theorem mem_hexEncodeChars_isHexDigit {bs : List Nat} (hb : ∀ b ∈ bs, b < 256) :
    ∀ c ∈ hexEncodeChars bs, isHexDigitCh c = true := by
  induction bs with
  | nil => intro c hc; cases hc
  | cons b bs ih =>
    intro c hc
    rw [hexEncodeChars_cons] at hc
    rcases List.mem_append.mp hc with h | h
    · have hblt : b < 256 := hb b (by simp)
      rcases h with _ | ⟨_, h⟩
      · exact isHexDigitCh_hexDigitChar _ (Nat.div_lt_iff_lt_mul (by omega) |>.mpr (by omega))
      · rcases h with _ | ⟨_, h⟩
        · exact isHexDigitCh_hexDigitChar _ (Nat.mod_lt _ (by omega))
        · cases h
    · exact ih (fun x hx => hb x (List.mem_cons_of_mem _ hx)) c h

/-- Folding the hex parser from an arbitrary accumulator. -/
theorem parseHexDigits_foldl (a : Nat) (cs : List Char) :
    cs.foldl (fun acc c => 16 * acc + hexVal c) a =
      a * 16 ^ cs.length + parseHexDigits cs := by
  induction cs generalizing a with
  | nil => simp [parseHexDigits]
  | cons c cs ih =>
    show List.foldl _ (16 * a + hexVal c) cs = _
    rw [ih]
    have h2 : parseHexDigits (c :: cs) =
        List.foldl (fun acc c => 16 * acc + hexVal c) (16 * 0 + hexVal c) cs := rfl
    rw [h2, ih, List.length_cons, pow_succ]
    ring

theorem parseHexDigits_append (a b : List Char) :
    parseHexDigits (a ++ b) = parseHexDigits a * 16 ^ b.length + parseHexDigits b := by
  rw [parseHexDigits, List.foldl_append, parseHexDigits_foldl]
  rfl

theorem parseHexDigits_all_zero {cs : List Char} (h : ∀ c ∈ cs, c = '0') :
    parseHexDigits cs = 0 := by
  induction cs with
  | nil => rfl
  | cons c cs ih =>
    have hc : c = '0' := h c (by simp)
    have : parseHexDigits (c :: cs) = ('0' :: cs).foldl (fun acc c => 16 * acc + hexVal c) 0 := by
      rw [hc]; rfl
    rw [this]
    show List.foldl _ (16 * 0 + hexVal '0') cs = 0
    have hz : (16 * 0 + hexVal '0') = 0 := by decide
    rw [hz]
    exact ih fun c hc => h c (List.mem_cons_of_mem _ hc)

theorem parseHexDigits_byteToHex {b : Nat} (hb : b < 256) :
    parseHexDigits (byteToHex b) = b := by
  show List.foldl _ 0 [hexDigitChar (b / 16), hexDigitChar (b % 16)] = b
  simp only [List.foldl_cons, List.foldl_nil]
  rw [hexVal_hexDigitChar (b / 16) (Nat.div_lt_iff_lt_mul (by omega) |>.mpr (by omega)),
    hexVal_hexDigitChar (b % 16) (Nat.mod_lt _ (by omega))]
  omega

theorem bytesToNatBE_foldl (a : Nat) (bs : List Nat) :
    bs.foldl (fun acc b => 256 * acc + b) a = a * 256 ^ bs.length + bytesToNatBE bs := by
  induction bs generalizing a with
  | nil => simp [bytesToNatBE]
  | cons x xs ih =>
    show List.foldl _ (256 * a + x) xs = _
    rw [ih]
    have h2 : bytesToNatBE (x :: xs) =
        List.foldl (fun acc b => 256 * acc + b) (256 * 0 + x) xs := rfl
    rw [h2, ih, List.length_cons, pow_succ]
    ring

theorem bytesToNatBE_cons (b : Nat) (bs : List Nat) :
    bytesToNatBE (b :: bs) = b * 256 ^ bs.length + bytesToNatBE bs := by
  have h : bytesToNatBE (b :: bs) =
      bs.foldl (fun acc b => 256 * acc + b) (256 * 0 + b) := rfl
  rw [h, bytesToNatBE_foldl]
  norm_num

theorem parseHexDigits_hexEncodeChars {bs : List Nat} (hb : ∀ b ∈ bs, b < 256) :
    parseHexDigits (hexEncodeChars bs) = bytesToNatBE bs := by
  induction bs with
  | nil => rfl
  | cons b bs ih =>
    rw [hexEncodeChars_cons, parseHexDigits_append, hexEncodeChars_length,
      parseHexDigits_byteToHex (hb b (by simp)), bytesToNatBE_cons,
      ih (fun x hx => hb x (List.mem_cons_of_mem _ hx)), pow_mul]
    norm_num

theorem bytesToNatBE_append_singleton (l : List Nat) (d : Nat) :
    bytesToNatBE (l ++ [d]) = 256 * bytesToNatBE l + d := by
  show List.foldl _ 0 (l ++ [d]) = _
  rw [List.foldl_append]
  rfl

theorem bytesToNatBE_natBytesBE (n : Nat) : bytesToNatBE (natBytesBE n) = n := by
  induction n using Nat.strong_induction_on with
  | _ n ih =>
    rw [natBytesBE]
    by_cases h : n = 0
    · simp [h]; rfl
    · simp only [h, dite_false]
      rw [bytesToNatBE_append_singleton,
        ih (n / 256) (Nat.div_lt_self (Nat.pos_of_ne_zero h) (by omega))]
      omega

theorem natBytesBE_lt (n : Nat) : ∀ b ∈ natBytesBE n, b < 256 := by
  induction n using Nat.strong_induction_on with
  | _ n ih =>
    rw [natBytesBE]
    by_cases h : n = 0
    · simp [h]
    · simp only [h, dite_false]
      intro b hb
      rcases List.mem_append.mp hb with h1 | h1
      · exact ih (n / 256) (Nat.div_lt_self (Nat.pos_of_ne_zero h) (by omega)) b h1
      · simp at h1
        subst h1
        exact Nat.mod_lt _ (by omega)

theorem natBytesBE_length_le {k n : Nat} (h : n < 256 ^ k) :
    (natBytesBE n).length ≤ k := by
  induction k generalizing n with
  | zero =>
    have : n = 0 := by simpa using h
    subst this
    simp [natBytesBE]
  | succ k ih =>
    rw [natBytesBE]
    by_cases hz : n = 0
    · simp [hz]
    · simp only [hz, dite_false, List.length_append, List.length_singleton]
      have : n / 256 < 256 ^ k := by
        rw [Nat.div_lt_iff_lt_mul (by omega)]
        calc n < 256 ^ (k + 1) := h
        _ = 256 ^ k * 256 := by rw [Nat.pow_succ]
      have := ih this
      omega

/-! ### List slicing helpers -/

theorem take_append_len {α : Type} {l₁ l₂ : List α} {n : Nat} (h : l₁.length = n) :
    (l₁ ++ l₂).take n = l₁ := by
  subst h; exact List.take_left l₁ l₂

theorem drop_append_len {α : Type} {l₁ l₂ : List α} {n : Nat} (h : l₁.length = n) :
    (l₁ ++ l₂).drop n = l₂ := by
  subst h; exact List.drop_left l₁ l₂

theorem dropWhile_head_false {α : Type} {p : α → Bool} :
    ∀ {l : List α} {c : α} {t : List α}, List.dropWhile p l = c :: t → p c = false := by
  intro l
  induction l with
  | nil => intro c t h; cases h
  | cons a l ih =>
    intro c t h
    rw [List.dropWhile_cons] at h
    by_cases hp : p a
    · rw [if_pos hp] at h; exact ih h
    · rw [if_neg hp] at h
      cases h
      simpa using hp

/-- A cons-shaped evaluation of the hex parser. -/
theorem parseHexDigits_cons (c : Char) (cs : List Char) :
    parseHexDigits (c :: cs) = hexVal c * 16 ^ cs.length + parseHexDigits cs := by
  have h : parseHexDigits (c :: cs) =
      cs.foldl (fun acc c => 16 * acc + hexVal c) (16 * 0 + hexVal c) := rfl
  rw [h, parseHexDigits_foldl]
  norm_num

theorem parseHexDigits_dropWhile_zero (cs : List Char) :
    parseHexDigits (cs.dropWhile (· = '0')) = parseHexDigits cs := by
  induction cs with
  | nil => rfl
  | cons c cs ih =>
    rw [List.dropWhile_cons]
    by_cases hc : c = '0'
    · rw [if_pos (by simp [hc]), ih, parseHexDigits_cons, hc]
      have : hexVal '0' = 0 := by decide
      rw [this]
      omega
    · rw [if_neg (by simp [hc])]

theorem dropWhile_zero_replicate_append (k : Nat) (cs : List Char) :
    (List.replicate k '0' ++ cs).dropWhile (· = '0') = cs.dropWhile (· = '0') := by
  induction k with
  | zero => rfl
  | succ k ih =>
    rw [List.replicate_succ, List.cons_append, List.dropWhile_cons, if_pos (by decide), ih]

/-! ### Claim C1: ERC-20 build/decode round trip -/

/-- Form of `leftPadBytes` when the slice is at most the target length. -/
theorem leftPadBytes_eq {bs : List Nat} {n : Nat} (h : bs.length ≤ n) :
    leftPadBytes bs n = List.replicate (n - bs.length) 0 ++ bs := by
  rw [leftPadBytes]
  by_cases h2 : n ≤ bs.length
  · have he : n = bs.length := le_antisymm h2 h
    simp [he]
  · simp [h2]

/-- Structural evaluation of the decoder on call data of the exact shape that
`BuildErc20Data` produces: selector, a 32-byte address word whose first 12
bytes are zero, and a 32-byte amount word. -/
theorem decodeErc20Branch_shape (data toA wordBytes : List Nat)
    (hdata : data = erc20MethodId ++ (List.replicate 12 0 ++ toA) ++ wordBytes)
    (hlen : toA.length = 20) (hword : wordBytes.length = 32) :
    decodeErc20Branch data =
      some ('0' :: 'x' :: hexEncodeChars toA,
        hexutilDecodeBig
          ('0' :: 'x' :: (hexEncodeChars wordBytes).dropWhile (· = '0'))) := by
  have hsel : hexEncodeChars erc20MethodId = ['a', '9', '0', '5', '9', 'c', 'b', 'b'] := by
    decide
  have hhex : hexEncodeChars data =
      ['a', '9', '0', '5', '9', 'c', 'b', 'b'] ++
        (List.replicate 24 '0' ++ hexEncodeChars toA) ++ hexEncodeChars wordBytes := by
    rw [hdata, hexEncodeChars_append, hexEncodeChars_append, hexEncodeChars_append,
      hexEncodeChars_replicate_zero, hsel]
  have hTolen : (hexEncodeChars toA).length = 40 := by
    rw [hexEncodeChars_length, hlen]
  have hWlen : (hexEncodeChars wordBytes).length = 64 := by
    rw [hexEncodeChars_length, hword]
  have hI34 : '0' :: 'x' :: hexEncodeChars data =
      (['0', 'x', 'a', '9', '0', '5', '9', 'c', 'b', 'b'] ++ List.replicate 24 '0') ++
        (hexEncodeChars toA ++ hexEncodeChars wordBytes) := by
    rw [hhex]; simp [List.append_assoc]
  have hI74 : '0' :: 'x' :: hexEncodeChars data =
      ((['0', 'x', 'a', '9', '0', '5', '9', 'c', 'b', 'b'] ++ List.replicate 24 '0') ++
        hexEncodeChars toA) ++ hexEncodeChars wordBytes := by
    rw [hhex]; simp [List.append_assoc]
  have hI10 : '0' :: 'x' :: hexEncodeChars data =
      ['0', 'x', 'a', '9', '0', '5', '9', 'c', 'b', 'b'] ++
        (List.replicate 24 '0' ++ (hexEncodeChars toA ++ hexEncodeChars wordBytes)) := by
    rw [hhex]; simp [List.append_assoc]
  have hlen138 : ('0' :: 'x' :: hexEncodeChars data).length = 138 := by
    rw [hI34]
    simp [List.length_append, hTolen, hWlen]
  have htake10 : ('0' :: 'x' :: hexEncodeChars data).take 10 =
      ['0', 'x', 'a', '9', '0', '5', '9', 'c', 'b', 'b'] := by
    rw [hI10]; exact take_append_len rfl
  have hdrop34 : ('0' :: 'x' :: hexEncodeChars data).drop 34 =
      hexEncodeChars toA ++ hexEncodeChars wordBytes := by
    rw [hI34]
    exact drop_append_len (by simp)
  have hdrop74 : ('0' :: 'x' :: hexEncodeChars data).drop 74 = hexEncodeChars wordBytes := by
    rw [hI74]
    exact drop_append_len (by simp [hTolen])
  rw [decodeErc20Branch]
  rw [if_pos (by rw [hlen138, htake10]; exact ⟨by omega, rfl⟩)]
  rw [hdrop34, take_append_len hTolen, hdrop74, List.take_of_length_le (le_of_eq hWlen)]

/-- C1 requires 1 ≤ V: for positive uint256 amounts the decode branch
recovers the exact destination bytes (as the lowercase `0x` hex string the
decoder returns) and the exact amount. -/
theorem erc20_roundTrip_pos (toA : List Nat) (V : Nat)
    (hlen : toA.length = 20) (_hto : ∀ b ∈ toA, b < 256)
    (hV1 : 1 ≤ V) (hV2 : V < 2 ^ 256) :
    decodeErc20Branch (BuildErc20Data toA V) =
      some ('0' :: 'x' :: hexEncodeChars toA, some V) := by
  have h256 : (2 : Nat) ^ 256 = 256 ^ 32 := by norm_num
  have habL : (natBytesBE V).length ≤ 32 := natBytesBE_length_le (h256 ▸ hV2)
  have hword : (leftPadBytes (natBytesBE V) 32).length = 32 := by
    rw [leftPadBytes_eq habL]
    simp
    omega
  have hdata : BuildErc20Data toA V =
      erc20MethodId ++ (List.replicate 12 0 ++ toA) ++ leftPadBytes (natBytesBE V) 32 := by
    rw [BuildErc20Data, leftPadBytes_eq (show toA.length ≤ 32 by omega), hlen]
  rw [decodeErc20Branch_shape _ toA _ hdata hlen hword]
  -- the amount word's hex is zeros followed by the hex of the minimal bytes of V
  have hwhex : hexEncodeChars (leftPadBytes (natBytesBE V) 32) =
      List.replicate (2 * (32 - (natBytesBE V).length)) '0' ++
        hexEncodeChars (natBytesBE V) := by
    rw [leftPadBytes_eq habL, hexEncodeChars_append, hexEncodeChars_replicate_zero]
  rw [hwhex, dropWhile_zero_replicate_append]
  -- properties of the trimmed digit string
  have hparse : parseHexDigits ((hexEncodeChars (natBytesBE V)).dropWhile (· = '0')) = V := by
    rw [parseHexDigits_dropWhile_zero, parseHexDigits_hexEncodeChars (natBytesBE_lt V),
      bytesToNatBE_natBytesBE]
  have hne : (hexEncodeChars (natBytesBE V)).dropWhile (· = '0') ≠ [] := by
    intro hnil
    rw [hnil] at hparse
    have : parseHexDigits ([] : List Char) = 0 := rfl
    omega
  obtain ⟨c, rest, hcr⟩ : ∃ c rest,
      (hexEncodeChars (natBytesBE V)).dropWhile (· = '0') = c :: rest := by
    cases h : (hexEncodeChars (natBytesBE V)).dropWhile (· = '0') with
    | nil => exact absurd h hne
    | cons c rest => exact ⟨c, rest, rfl⟩
  have hc0 : ¬ c = '0' := by
    have := dropWhile_head_false hcr
    simpa using this
  have hlen64 : (c :: rest).length ≤ 64 := by
    rw [← hcr]
    calc ((hexEncodeChars (natBytesBE V)).dropWhile (· = '0')).length
        ≤ (hexEncodeChars (natBytesBE V)).length := (List.dropWhile_sublist _).length_le
      _ = 2 * (natBytesBE V).length := hexEncodeChars_length _
      _ ≤ 64 := by omega
  have hallhex : (c :: rest).all isHexDigitCh = true := by
    rw [← hcr, List.all_eq_true]
    intro x hx
    exact mem_hexEncodeChars_isHexDigit (natBytesBE_lt V) x
      ((List.dropWhile_sublist _).mem hx)
  rw [hcr]
  rw [hexutilDecodeBig]
  rw [if_neg (by simp [hc0]), if_neg (by omega), if_pos hallhex]
  have : parseHexDigits (c :: rest) = V := by rw [← hcr]; exact hparse
  rw [this]

/-- C1 counterexample: at amount `V = 0` the encoded amount word is all
zeros, `TrimLeft` strips every character, `hexutil.DecodeBig "0x"` fails,
and the decoder does not recover the amount (the Go code then passes the
`nil` big.Int to `decimal.NewFromBigInt`).  So the round trip as claimed —
for every amount — is false at this explicit input. -/
theorem erc20_roundTrip_zero_counterexample :
    decodeErc20Branch (BuildErc20Data (List.replicate 20 17) 0) =
      some ('0' :: 'x' :: hexEncodeChars (List.replicate 20 17), none) ∧
    ∀ W : Nat, decodeErc20Branch (BuildErc20Data (List.replicate 20 17) 0) ≠
      some ('0' :: 'x' :: hexEncodeChars (List.replicate 20 17), some W) := by
  have h0 : natBytesBE 0 = [] := by rw [natBytesBE]; simp
  have hword : leftPadBytes (natBytesBE 0) 32 = List.replicate 32 0 := by
    rw [h0, leftPadBytes]; simp
  have hdata : BuildErc20Data (List.replicate 20 17) 0 =
      erc20MethodId ++ (List.replicate 12 0 ++ List.replicate 20 17) ++
        List.replicate 32 0 := by
    rw [BuildErc20Data, hword, leftPadBytes_eq (by simp)]
    simp
  have hmain : decodeErc20Branch (BuildErc20Data (List.replicate 20 17) 0) =
      some ('0' :: 'x' :: hexEncodeChars (List.replicate 20 17), none) := by
    rw [decodeErc20Branch_shape _ (List.replicate 20 17) _ hdata (by simp) (by simp)]
    have hz : hexEncodeChars (List.replicate 32 0) = List.replicate 64 '0' := by
      rw [hexEncodeChars_replicate_zero]
    have hdw : (List.replicate 64 '0').dropWhile (· = '0') = ([] : List Char) := by
      have := dropWhile_zero_replicate_append 64 ([] : List Char)
      simpa using this
    rw [hz, hdw]
    rfl
  refine ⟨hmain, ?_⟩
  intro W h
  rw [hmain] at h
  simp at h

/-- C1 (amended) witness at a concrete address and amount `1000`. -/
theorem erc20_roundTrip_pos_witness :
    decodeErc20Branch (BuildErc20Data (List.replicate 20 18) 1000) =
      some ('0' :: 'x' :: hexEncodeChars (List.replicate 20 18), some 1000) :=
  erc20_roundTrip_pos (List.replicate 20 18) 1000 (by decide) (by decide)
    (by decide) (by norm_num)

/-! ### Claims C3 and C4: SVM fee estimation -/

/-- C3: for a non-empty fee list of length `N`, the suggested fee is the
element at index `⌊0.75 * N⌋` of the ascending sort of the fee values (the
index is in bounds), and the three tiers built from any base fee satisfy
`slow ≤ normal ≤ fast` whenever the fast tier does not overflow uint64. -/
theorem suggestedFee_percentile_and_tiers (fees : List PrioritizationFee)
    (hne : fees ≠ []) (l : List Nat)
    (hperm : (fees.map (·.prioritizationFee)).Perm l)
    (hsort : l.Sorted (· ≤ ·)) (baseFee : Nat)
    (hnoOverflow : baseFee + 5 * GetSuggestedPriorityFee fees / 4 < 2 ^ 64) :
    GetSuggestedPriorityFee fees = l.getD (3 * fees.length / 4) 0 ∧
    3 * fees.length / 4 < l.length ∧
    slowFee baseFee (GetSuggestedPriorityFee fees) ≤
      normalFee baseFee (GetSuggestedPriorityFee fees) ∧
    normalFee baseFee (GetSuggestedPriorityFee fees) ≤
      fastFee baseFee (GetSuggestedPriorityFee fees) := by
  have hlen : fees.length ≠ 0 := by
    intro h
    exact hne (List.eq_nil_of_length_eq_zero h)
  have hsorted :
      ((fees.map (·.prioritizationFee)).insertionSort (· ≤ ·)) = l := by
    refine List.eq_of_perm_of_sorted ?_ (List.sorted_insertionSort _ _) hsort
    exact (List.perm_insertionSort _ _).trans hperm
  have hval : GetSuggestedPriorityFee fees = l.getD (3 * fees.length / 4) 0 := by
    rw [GetSuggestedPriorityFee, if_neg hlen]
    simp only [List.length_map]
    rw [hsorted]
  have hlenl : l.length = fees.length := by
    have := hperm.length_eq
    simpa using this.symm
  refine ⟨hval, by omega, ?_, ?_⟩
  · rw [slowFee, normalFee,
      Nat.mod_eq_of_lt (by omega), Nat.mod_eq_of_lt (by omega)]
    omega
  · rw [normalFee, fastFee,
      Nat.mod_eq_of_lt (by omega), Nat.mod_eq_of_lt (by omega)]
    omega

/-- C3 witness: four fees, suggested index `⌊0.75*4⌋ = 3`. -/
theorem suggestedFee_percentile_and_tiers_witness :
    GetSuggestedPriorityFee [⟨1, 40⟩, ⟨2, 10⟩, ⟨3, 30⟩, ⟨4, 20⟩] =
      [10, 20, 30, 40].getD (3 * ([⟨1, 40⟩, ⟨2, 10⟩, ⟨3, 30⟩, ⟨4, 20⟩] :
        List PrioritizationFee).length / 4) 0 ∧
    3 * ([⟨1, 40⟩, ⟨2, 10⟩, ⟨3, 30⟩, ⟨4, 20⟩] : List PrioritizationFee).length / 4 <
      [10, 20, 30, 40].length ∧
    slowFee 100 (GetSuggestedPriorityFee [⟨1, 40⟩, ⟨2, 10⟩, ⟨3, 30⟩, ⟨4, 20⟩]) ≤
      normalFee 100 (GetSuggestedPriorityFee [⟨1, 40⟩, ⟨2, 10⟩, ⟨3, 30⟩, ⟨4, 20⟩]) ∧
    normalFee 100 (GetSuggestedPriorityFee [⟨1, 40⟩, ⟨2, 10⟩, ⟨3, 30⟩, ⟨4, 20⟩]) ≤
      fastFee 100 (GetSuggestedPriorityFee [⟨1, 40⟩, ⟨2, 10⟩, ⟨3, 30⟩, ⟨4, 20⟩]) :=
  suggestedFee_percentile_and_tiers _ (by decide) [10, 20, 30, 40]
    (by decide) (by decide) 100 (by decide)

/-- C4 counterexample: with the node answering `getRecentPrioritizationFees`
with the empty list, `GetFee` returns an error — not a success with
priority fee 0 — because the rpc client rejects an empty result before the
`GetSuggestedPriorityFee` zero-fallback can run. -/
theorem getFee_emptyFees_counterexample :
    solGetFee "Solana" "mainnet" (.ok 5000)
      { transportErr := none, httpIsError := false, rpcError := none, result := some [] } =
      .error ("GetFee GetRecentPrioritizationFees failed: " ++
        "invalid response: empty RecentPrioritizationFees data") := by
  rfl

/-- C4 (amended): an empty `getRecentPrioritizationFees` response makes
`GetFee` fail with the wrapped empty-data error for every base fee; the
empty-list → 0 fallback and the equal-tiers consequence hold only for
`GetSuggestedPriorityFee` itself, which `GetFee` never reaches with an
empty list. -/
theorem getFee_emptyFees_amended (network : String) (baseFee : Nat)
    (hb : baseFee < 2 ^ 64) (r : FeesRpcResult)
    (ht : r.transportErr = none) (hh : r.httpIsError = false)
    (he : r.rpcError = none) (hres : r.result = some []) :
    solGetFee "Solana" network (.ok baseFee) r =
      .error ("GetFee GetRecentPrioritizationFees failed: " ++
        "invalid response: empty RecentPrioritizationFees data") ∧
    GetSuggestedPriorityFee [] = 0 ∧
    slowFee baseFee 0 = baseFee ∧ normalFee baseFee 0 = baseFee ∧
    fastFee baseFee 0 = baseFee := by
  refine ⟨?_, rfl, ?_, ?_, ?_⟩
  · rw [solGetFee, GetRecentPrioritizationFees, ht, hh, he, hres]
    simp [validateChainAndNetwork]
  · rw [slowFee]; omega
  · rw [normalFee]; omega
  · rw [fastFee]; omega

/-- C4 (amended) witness at base fee 5000. -/
theorem getFee_emptyFees_amended_witness :
    solGetFee "Solana" "mainnet" (.ok 5000)
      { transportErr := none, httpIsError := false, rpcError := none, result := some [] } =
      .error ("GetFee GetRecentPrioritizationFees failed: " ++
        "invalid response: empty RecentPrioritizationFees data") ∧
    GetSuggestedPriorityFee [] = 0 ∧
    slowFee 5000 0 = 5000 ∧ normalFee 5000 0 = 5000 ∧ fastFee 5000 0 = 5000 :=
  getFee_emptyFees_amended "mainnet" 5000 (by norm_num) _ rfl rfl rfl rfl

/-! ### Claims C8 and C6: SVM transaction fetch -/

/-- The validation loop reports some error whenever the (trimmed) list
contains an element that is empty or of length outside 88-90. -/
theorem validateSignatureList_some {s : String} :
    ∀ (l : List String) (i : Nat), s ∈ l →
      (s.length < 88 ∨ 90 < s.length) →
      ∃ e, validateSignatureList i l = some e := by
  intro l
  induction l with
  | nil => intro i h; cases h
  | cons a rest ih =>
    intro i hmem hbad
    rw [validateSignatureList]
    by_cases ha1 : a = ""
    · exact ⟨_, by rw [if_pos ha1]⟩
    · rw [if_neg ha1]
      by_cases ha2 : a.length < 88 ∨ 90 < a.length
      · exact ⟨_, by rw [if_pos ha2]⟩
      · rw [if_neg ha2]
        rcases List.mem_cons.mp hmem with heq | hmem2
        · subst heq; exact absurd hbad ha2
        · exact ih (i + 1) hmem2 hbad

/-- C8: a signature whose trimmed length is outside 88-90 is rejected by
`GetTransaction` with an error and zero HTTP calls, and any signature list
containing it is rejected by `GetTransactionRange` with an error (nil
results) and zero HTTP calls. -/
theorem malformed_signature_no_rpc (net : String → GetTxRpcResult) (sig : String)
    (hbad : (trimSpace sig).length < 88 ∨ 90 < (trimSpace sig).length) :
    (∃ e, getTransaction net sig = (.error e, 0)) ∧
    ∀ sigs : List String, sig ∈ sigs →
      ∃ e, getTransactionRange net sigs = ((none, some e), 0) := by
  constructor
  · rw [getTransaction]
    by_cases h0 : trimSpace sig = ""
    · exact ⟨_, by rw [if_pos h0]⟩
    · rw [if_neg h0]
      exact ⟨_, by rw [if_pos hbad]⟩
  · intro sigs hmem
    have hlen : sigs.length ≠ 0 := by
      intro h
      rw [List.eq_nil_of_length_eq_zero h] at hmem
      cases hmem
    obtain ⟨e, he⟩ := validateSignatureList_some (sigs.map trimSpace) 0
      (List.mem_map_of_mem trimSpace hmem) hbad
    refine ⟨e, ?_⟩
    rw [getTransactionRange, if_neg hlen]
    simp only [he]

/-- C8 witness: the too-short signature `"ab"` with an arbitrary network. -/
theorem malformed_signature_no_rpc_witness :
    ((trimSpace "ab").length < 88 ∨ 90 < (trimSpace "ab").length) ∧
    ((∃ e, getTransaction netC "ab" = (.error e, 0)) ∧
      ∀ sigs : List String, "ab" ∈ sigs →
        ∃ e, getTransactionRange netC sigs = ((none, some e), 0)) :=
  ⟨by decide, malformed_signature_no_rpc netC "ab" (by decide)⟩

/-- C6 counterexample: two valid signatures, `sigA` succeeding with a valid
transaction and `sigB` failing; `GetTransactionRange` returns `nil` results
with the aggregate error — the successful transaction is discarded, so
"returns the successfully fetched transactions together with an aggregate
error" is false at this input. -/
theorem rangeFetch_discards_partial_counterexample :
    (getTransactionRange netC [sigA, sigB]).1.1 = none ∧
    (getTransactionRange netC [sigA, sigB]).1.2 =
      some ("multiple errors occurred: failed to get transaction " ++ sigB ++
        ": RPC error: code=-1, message=boom") ∧
    (workerOutcome netC (trimSpace sigA)).1 =
      .ok { slot := 5, transaction := { signatures := some ["x"] } } := by
  refine ⟨by rfl, by rfl, by rfl⟩

/-- C6 (amended): on a multi-signature fetch where at least one signature
fails, `GetTransactionRange` returns `nil` (no transactions) together with
the aggregate error listing every failing signature's cause — the
successfully fetched transactions are discarded, not returned. -/
theorem rangeFetch_partial_amended (net : String → GetTxRpcResult)
    (sigs : List String) (hlen2 : 2 ≤ sigs.length)
    (hvalid : validateSignatureList 0 (sigs.map trimSpace) = none)
    (hfail : rangeErrors net (sigs.map trimSpace) ≠ []) :
    getTransactionRange net sigs =
      ((none, some ("multiple errors occurred: " ++ String.intercalate "; "
          (rangeErrors net (sigs.map trimSpace)))),
        rangeCalls net (sigs.map trimSpace)) ∧
    ∀ s ∈ sigs.map trimSpace, ∀ e, (workerOutcome net s).1 = .error e →
      e ∈ rangeErrors net (sigs.map trimSpace) := by
  constructor
  · have hlen : sigs.length ≠ 0 := by omega
    rw [getTransactionRange, if_neg hlen]
    simp only [hvalid]
    obtain ⟨s1, rest1, h1⟩ : ∃ s1 rest1, sigs = s1 :: rest1 := by
      cases sigs with
      | nil => simp at hlen2
      | cons a b => exact ⟨a, b, rfl⟩
    obtain ⟨s2, rest2, h2⟩ : ∃ s2 rest2, rest1 = s2 :: rest2 := by
      cases rest1 with
      | nil => rw [h1] at hlen2; simp at hlen2
      | cons a b => exact ⟨a, b, rfl⟩
    subst h1; subst h2
    simp only [List.map_cons] at hfail ⊢
    have hpos : 0 < (rangeErrors net
        (trimSpace s1 :: trimSpace s2 :: List.map trimSpace rest2)).length :=
      List.length_pos.mpr hfail
    rw [if_pos hpos]
  · intro s hs e he
    rw [rangeErrors]
    exact List.mem_filterMap.mpr
      ⟨workerOutcome net s, List.mem_map_of_mem _ hs, by rw [he]⟩

/-- C6 (amended) witness at the concrete two-signature scenario. -/
theorem rangeFetch_partial_amended_witness :
    getTransactionRange netC [sigA, sigB] =
      ((none, some ("multiple errors occurred: " ++ String.intercalate "; "
          (rangeErrors netC ([sigA, sigB].map trimSpace)))),
        rangeCalls netC ([sigA, sigB].map trimSpace)) ∧
    ∀ s ∈ [sigA, sigB].map trimSpace, ∀ e, (workerOutcome netC s).1 = .error e →
      e ∈ rangeErrors netC ([sigA, sigB].map trimSpace) :=
  rangeFetch_partial_amended netC [sigA, sigB] (by decide) (by decide) (by decide)

/-! ### Claims C2 and C5: signed builds and integrity checks -/

/-- Shared lemma: on the EVM signed-build path, if all stages succeed but
the recovered sender differs from the declared `from`, the operation
returns the mismatch error. -/
theorem ethBuildSignedTransaction_mismatch (env : EthBuildEnv) (b sig : String)
    {dtx : DynamicFeeTx} {dyn : Eip1559DynamicFeeTx} {sb : List Nat}
    {out : CreateSignedOut} {sender : String}
    (h1 : env.buildDynamicFeeTx b = .ok (dtx, dyn))
    (h2 : hexDecodeString sig = some sb)
    (h3 : env.createEip1559SignedTx dtx sb = .ok out)
    (h4 : env.sender out = .ok sender)
    (h5 : sender ≠ dyn.fromAddress) :
    ethBuildSignedTransaction env b sig =
      .error ("sender address mismatch: expected " ++ dyn.fromAddress ++
        ", got " ++ sender) := by
  simp only [ethBuildSignedTransaction, h1, h2, h3, h4]
  rw [if_pos h5]

/-- C2: the EVM signed build succeeds only when the sender recovered from
the attached signature equals the caller-declared `from`; any mismatch is a
hard error with no success value. -/
theorem evm_buildSigned_sender_check (env : EthBuildEnv) (b sig : String)
    (dtx : DynamicFeeTx) (dyn : Eip1559DynamicFeeTx) (sb : List Nat)
    (out : CreateSignedOut) (sender : String)
    (h1 : env.buildDynamicFeeTx b = .ok (dtx, dyn))
    (h2 : hexDecodeString sig = some sb)
    (h3 : env.createEip1559SignedTx dtx sb = .ok out)
    (h4 : env.sender out = .ok sender) :
    (sender ≠ dyn.fromAddress →
      ethBuildSignedTransaction env b sig =
        .error ("sender address mismatch: expected " ++ dyn.fromAddress ++
          ", got " ++ sender)) ∧
    (∀ r, ethBuildSignedTransaction env b sig = .ok r → sender = dyn.fromAddress) := by
  constructor
  · intro h5
    exact ethBuildSignedTransaction_mismatch env b sig h1 h2 h3 h4 h5
  · intro r hr
    by_contra h5
    rw [ethBuildSignedTransaction_mismatch env b sig h1 h2 h3 h4 h5] at hr
    cases hr

/-- C2 witness: a concrete environment recovering `0xMallory` against a
declared `0xAlice`. -/
theorem evm_buildSigned_sender_check_witness :
    ("0xMallory" ≠ ({ fromAddress := "0xAlice", contractAddress := "" } :
        Eip1559DynamicFeeTx).fromAddress →
      ethBuildSignedTransaction envE "req" "00" =
        .error ("sender address mismatch: expected " ++
          ({ fromAddress := "0xAlice", contractAddress := "" } :
            Eip1559DynamicFeeTx).fromAddress ++ ", got " ++ "0xMallory")) ∧
    (∀ r, ethBuildSignedTransaction envE "req" "00" = .ok r →
      "0xMallory" = ({ fromAddress := "0xAlice", contractAddress := "" } :
        Eip1559DynamicFeeTx).fromAddress) :=
  evm_buildSigned_sender_check envE "req" "00"
    { chainId := 1, nonce := 0, gasTipCap := 1, gasFeeCap := 2, gas := 21000,
      toAddr := "0xBob", value := 5, data := [] }
    { fromAddress := "0xAlice", contractAddress := "" }
    [0] { rawTx := "0xraw", txHash := "0xhash" } "0xMallory" rfl rfl rfl rfl

/-- C5 counterexample: on the SVM signed-build path a native signature
verification failure is only logged; the operation still succeeds and
returns the serialized transaction, so "a verification failure is never
merely logged while the operation continues and returns a result" is false
at this concrete environment. -/
theorem svm_verifyFailure_not_fatal_counterexample :
    envS.verifySignatures
      (setSolSignature { signatures := [], msgId := 7 }
        ((hexDecodeString dataS.signature).getD [])) = some "invalid signature" ∧
    solBuildSignedTransaction envS "req" =
      .ok { txHash := "", signedTx := base58Encode [1, 2, 3] } :=
  ⟨rfl, rfl⟩

/-- C5 (amended): the header-by-hash cross-check and the EVM sender
cross-check are fatal (error, no success value), but the SVM signed-build's
native signature verification is only logged — the build still returns a
success. -/
theorem integrity_checks_amended :
    (∀ (node : String → Except String (Option Header)) (f : Header → String)
        (h : String) (hd : Header), node h = .ok (some hd) → f hd ≠ h →
      blockHeaderByHash node f h = .error "header mismatch") ∧
    (∀ (node : String → Except String (Option Header)) (f : Header → String)
        (h : String) (hd : Header), blockHeaderByHash node f h = .ok hd →
      f hd = h) ∧
    (∀ (env : EthBuildEnv) (b sig : String) (dtx : DynamicFeeTx)
        (dyn : Eip1559DynamicFeeTx) (sb : List Nat) (out : CreateSignedOut)
        (sender : String), env.buildDynamicFeeTx b = .ok (dtx, dyn) →
      hexDecodeString sig = some sb →
      env.createEip1559SignedTx dtx sb = .ok out →
      env.sender out = .ok sender → sender ≠ dyn.fromAddress →
      ethBuildSignedTransaction env b sig =
        .error ("sender address mismatch: expected " ++ dyn.fromAddress ++
          ", got " ++ sender)) ∧
    (∀ (env : SolBuildEnv) (b : String) (data : SolTxStructure) (value : Nat)
        (fromPub toPub : List Nat) (tx0 : SolTransaction) (bytes : List Nat)
        (errv : String), env.decodeTxStructure b = .ok data →
      env.parseValue data.value = .ok value →
      env.publicKeyFromBase58 data.fromAddress = .ok fromPub →
      env.publicKeyFromBase58 data.toAddress = .ok toPub →
      env.constructTx data value fromPub toPub = .ok tx0 →
      env.verifySignatures
        (setSolSignature tx0 ((hexDecodeString data.signature).getD [])) = some errv →
      env.marshalBinary
        (setSolSignature tx0 ((hexDecodeString data.signature).getD [])) = .ok bytes →
      solBuildSignedTransaction env b =
        .ok { txHash := "", signedTx := base58Encode bytes }) := by
  refine ⟨?_, ?_, ?_, ?_⟩
  · intro node f h hd hnode hne
    simp only [blockHeaderByHash, hnode]
    rw [if_pos hne]
  · intro node f h hd hok
    rw [blockHeaderByHash] at hok
    cases hnode : node h with
    | error e => simp only [hnode] at hok; cases hok
    | ok o =>
      cases o with
      | none => simp only [hnode] at hok; cases hok
      | some hd2 =>
        simp only [hnode] at hok
        by_cases hne : f hd2 ≠ h
        · rw [if_pos hne] at hok; cases hok
        · rw [if_neg hne] at hok
          cases hok
          exact not_ne_iff.mp hne
  · intro env b sig dtx dyn sb out sender h1 h2 h3 h4 h5
    exact ethBuildSignedTransaction_mismatch env b sig h1 h2 h3 h4 h5
  · intro env b data value fromPub toPub tx0 bytes errv hd hv hf ht hc _hver hm
    simp only [solBuildSignedTransaction, hd, hv, hf, ht, hc, hm]

/-- C5 (amended) witness: concrete instantiations of all four conjuncts. -/
theorem integrity_checks_amended_witness :
    blockHeaderByHash (fun _ => .ok (some { number := 7 })) (fun _ => "hOther")
      "hAsked" = .error "header mismatch" ∧
    ((fun _ => "hGood") ({ number := 7 } : Header) = "hGood") ∧
    ethBuildSignedTransaction envE "req" "00" =
      .error ("sender address mismatch: expected " ++ "0xAlice" ++
        ", got " ++ "0xMallory") ∧
    solBuildSignedTransaction envS "req" =
      .ok { txHash := "", signedTx := base58Encode [1, 2, 3] } := by
  refine ⟨?_, rfl, ?_, ?_⟩
  · exact integrity_checks_amended.1 _ _ "hAsked" { number := 7 } rfl (by decide)
  · exact integrity_checks_amended.2.2.1 envE "req" "00"
      { chainId := 1, nonce := 0, gasTipCap := 1, gasFeeCap := 2, gas := 21000,
        toAddr := "0xBob", value := 5, data := [] }
      { fromAddress := "0xAlice", contractAddress := "" }
      [0] { rawTx := "0xraw", txHash := "0xhash" } "0xMallory"
      rfl rfl rfl rfl (by decide)
  · exact integrity_checks_amended.2.2.2 envS "req" dataS 1500000000
      (List.replicate 32 1) (List.replicate 32 1) { signatures := [], msgId := 7 }
      [1, 2, 3] "invalid signature" rfl rfl rfl rfl rfl rfl rfl

/-! ### Claims C7 and C9: EVM block-header range -/

/-- C7: at `count = 99` (for example `start = 0, end = 98` on a restricted
chain), the single group's clamp `end > count` fails to fire (`99 > 99` is
false), so the goroutine writes index 99 — equal to `count`, outside
`[0, count)` — into the length-99 array: an out-of-range write.  The
interval partition itself is `[0, 99]`, produced by group start 0. -/
theorem range_group_write_out_of_bounds :
    groupStarts 99 = [0] ∧ groupEnd 99 0 = 99 ∧
    writtenIndices 99 0 = List.range' 0 100 ∧
    (99 ∈ writtenIndices 99 0 ∧ ¬ 99 < 99) ∧
    ¬ (∀ j ∈ writtenIndices 99 0, j < 99) := by
  refine ⟨by decide, by decide, by decide, ⟨by decide, by decide⟩, ?_⟩
  intro hall
  exact absurd (hall 99 (by decide)) (by decide)

/-- C9: a range request with `start = end` takes the single-header path:
exactly one `eth_getBlockByNumber` call, no batch call, and the result is
exactly the one header the node returns for that height. -/
theorem headersByRange_single_height (node : Nat → Except String (Option Header))
    (batchFetch : List Nat → Except String (List Header)) (restricted : Bool)
    (startH endH : Nat) (hd : Header) (heq : startH = endH)
    (hnode : node startH = .ok (some hd)) (hnum : hd.number = startH) :
    blockHeadersByRange node batchFetch restricted startH endH =
      (.ok [hd], [.single startH]) ∧
    ∀ h2 ∈ [hd], h2.number = startH := by
  subst heq
  constructor
  · rw [blockHeadersByRange, if_pos rfl]
    simp only [blockHeaderByNumber, hnode]
  · intro h2 hh2
    rw [List.mem_singleton] at hh2
    subst hh2
    exact hnum

/-- C9 witness: height 100 against a node answering every height
consistently. -/
theorem headersByRange_single_height_witness :
    blockHeadersByRange (fun n => .ok (some { number := n })) (fun _ => .ok [])
      false 100 100 = (.ok [{ number := 100 }], [.single 100]) ∧
    ∀ h2 ∈ [({ number := 100 } : Header)], h2.number = 100 :=
  headersByRange_single_height _ _ false 100 100 { number := 100 } rfl rfl rfl

/-! ### Claim C10: EVM address conversion from an invalid public key -/

/-- C10: for every public-key string that is not valid hexadecimal,
`ConvertAddress` returns the all-zero address with a nil error, for any
keccak and address-formatting behavior. -/
theorem convertAddress_invalid_hex (keccak : List Nat → List Nat)
    (addrString : List Nat → String) (pub : String)
    (h : hexDecodeString pub = none) :
    convertAddress keccak addrString pub = (zeroAddressString, none) := by
  rw [convertAddress, h]

/-- C10 witness: the non-hex string `"zz"`. -/
theorem convertAddress_invalid_hex_witness :
    convertAddress (fun _ => []) (fun _ => "") "zz" = (zeroAddressString, none) :=
  convertAddress_invalid_hex (fun _ => []) (fun _ => "") "zz" (by decide)

end WCA
